import Mathlib

/-!
Verification development for the AKI.IO JavaScript API client
(class `Aki` and the free function `doAPIRequest`).

The JavaScript source is shallowly embedded:

* JSON-able JavaScript values are the inductive `Value`;
* JavaScript objects are association lists with unique keys, and the
  object operations `obj[k]` (read), `obj[k] = v` (write), `delete obj[k]`
  and `k in obj` are `alLookup`, `alSet`, `alDelete` and `alHasKey`;
* the two per-client mutable maps `jobsCanceled` and `progressInputParams`
  are keyed by `Option String`: `some jid` is an ordinary job identifier
  and `none` is the JavaScript `null` wildcard key;
* network effects are passed in explicitly: a poll cycle consumes one
  `Except String Response` (an `Except.error` models the fetch throwing),
  and callback invocations are recorded as a list of `Event`s.
-/

namespace AkiClient

/-- JSON-able JavaScript runtime values (the values that appear in request
parameter objects and responses). -/
inductive Value where
  | str : String → Value
  | num : Int → Value
  | bool : Bool → Value
  | null : Value
  | obj : List (String × Value) → Value
  | arr : List Value → Value

/-- A JavaScript object used as a string-keyed parameter map. -/
abbrev ParamMap := List (String × Value)

/-- Property read `m[k]`: first binding of key `k`, if any. -/
def alLookup [DecidableEq κ] : List (κ × α) → κ → Option α
  | [], _ => none
  | kv :: rest, k => if kv.1 = k then some kv.2 else alLookup rest k

/-- Property write `m[k] = v`: replace the binding in place if the key
exists (JavaScript keeps insertion order), otherwise append it. -/
def alSet [DecidableEq κ] : List (κ × α) → κ → α → List (κ × α)
  | [], k, v => [(k, v)]
  | kv :: rest, k, v => if kv.1 = k then (k, v) :: rest else kv :: alSet rest k v

/-- Property removal `delete m[k]`. -/
def alDelete [DecidableEq κ] : List (κ × α) → κ → List (κ × α)
  | [], _ => []
  | kv :: rest, k => if kv.1 = k then alDelete rest k else kv :: alDelete rest k

/-- The JavaScript `k in m` test. -/
def alHasKey [DecidableEq κ] (m : List (κ × α)) (k : κ) : Bool :=
  (alLookup m k).isSome

/-- Key list of an object (its own enumerable property names, in order). -/
def alKeys (m : List (κ × α)) : List κ :=
  m.map Prod.fst

/-- The JavaScript `typeof` operator restricted to `Value`
(note that `typeof null` is `"object"` in JavaScript). -/
def jsTypeof : Value → String
  | Value.str _ => "string"
  | Value.num _ => "number"
  | Value.bool _ => "boolean"
  | Value.null => "object"
  | Value.obj _ => "object"
  | Value.arr _ => "object"

/-- The JavaScript strict comparison `v === null`. -/
def isNullValue : Value → Bool
  | Value.null => true
  | _ => false

/-- Escape one character for a JSON string literal (quote and backslash;
the strings in play contain no control characters). -/
def escapeJSONChar (c : Char) : String :=
  if c = '"' then "\\\"" else if c = '\\' then "\\\\" else String.singleton c

/-- A JSON string literal: quotes around the escaped characters. -/
def quoteJSONString (s : String) : String :=
  "\"" ++ String.join (s.data.map escapeJSONChar) ++ "\""

mutual

/-- Model of `JSON.stringify` on JSON-able values. -/
def jsonStringify : Value → String
  | Value.str s => quoteJSONString s
  | Value.num n => toString n
  | Value.bool b => if b then "true" else "false"
  | Value.null => "null"
  | Value.obj fields => "\x7b" ++ jsonFieldsString fields ++ "\x7d"
  | Value.arr elems => "[" ++ jsonElemsString elems ++ "]"

/-- Comma-separated `"key":value` members of a JSON object body. -/
def jsonFieldsString : List (String × Value) → String
  | [] => ""
  | [kv] => quoteJSONString kv.1 ++ ":" ++ jsonStringify kv.2
  | kv :: rest => quoteJSONString kv.1 ++ ":" ++ jsonStringify kv.2 ++ "," ++ jsonFieldsString rest

/-- Comma-separated elements of a JSON array body. -/
def jsonElemsString : List Value → String
  | [] => ""
  | [v] => jsonStringify v
  | v :: rest => jsonStringify v ++ "," ++ jsonElemsString rest

end

/-- Loop body of `stringifyObjects` (the `for key in params` loop): every
own property is copied onto the fresh accumulator object, values with
`typeof params[key] === 'object' && params[key] !== null` replaced by
their `JSON.stringify` encoding. -/
def stringifyObjectsGo : ParamMap → ParamMap → ParamMap
  | [], acc => acc
  | kv :: rest, acc =>
      stringifyObjectsGo rest
        (alSet acc kv.1
          (if jsTypeof kv.2 == "object" && !(isNullValue kv.2) then
            Value.str (jsonStringify kv.2)
          else
            kv.2))

/-- Embedding of `Aki.stringifyObjects(params)`: builds a new object
`transformedParams` from an empty one, walking the input's own keys. -/
def stringifyObjects (params : ParamMap) : ParamMap :=
  stringifyObjectsGo params []

/-- Modelled from the spec's words for comparison in C6: a value is
"structured (a non-null object)" when it is an object or an array. -/
def isStructuredSpec : Value → Bool
  | Value.obj _ => true
  | Value.arr _ => true
  | _ => false

/-- The per-instance state of class `Aki`: the fields set in the
constructor. `clientSessionAuthKey` is `null` (`none`) until a session
key is stored; the two maps are keyed by job identifier or by the
JavaScript `null` wildcard (`none`). -/
structure ClientState where
  endpointName : String
  apiKey : String
  clientSessionAuthKey : Option String
  apiServerUrl : String
  defaultProgressIntervall : Int
  jobsCanceled : List (Option String × Bool)
  progressInputParams : List (Option String × List ParamMap)

/-- `Aki.version` from the source. -/
def akiVersion : String := "JavaScript AKI.IO API Client Interface 1.0.0"

/-- Embedding of `new Aki(endpointName, apiKey)` with no options object:
the constructor defaults, including the literal default server URL of the
source (which is missing one slash after `https:`). -/
def AkiNew (endpointName apiKey : String) : ClientState :=
  { endpointName := endpointName
    apiKey := apiKey
    clientSessionAuthKey := none
    apiServerUrl := "https:/aki.io/api/"
    defaultProgressIntervall := 300
    jobsCanceled := []
    progressInputParams := [] }

/-- Embedding of `Aki.append_progressInputParams(jobID, params)`:
push onto the queued array for the key, or start a fresh one-element
array. -/
def append_progressInputParams (st : ClientState) (jobID : Option String)
    (params : ParamMap) : ClientState :=
  match alLookup st.progressInputParams jobID with
  | some arr =>
      { st with progressInputParams := alSet st.progressInputParams jobID (arr ++ [params]) }
  | none =>
      { st with progressInputParams := alSet st.progressInputParams jobID [params] }

/-- Embedding of `Aki.cancelRequest(jobID)` (the source's default
argument for `jobID` is `null`, i.e. `none`). -/
def cancelRequest (st : ClientState) (jobID : Option String) : ClientState :=
  { st with jobsCanceled := alSet st.jobsCanceled jobID true }

/-- `Object.assign(params, arr)` where `arr` is a JavaScript Array of
parameter objects: the array's own enumerable properties are its indices,
so the keys copied onto `params` are `"0"`, `"1"`, ... and each value is
the queued object itself. -/
def assignArrayIndices (params : ParamMap) (arr : List ParamMap) : ParamMap :=
  arr.enum.foldl (fun p iq => alSet p (toString iq.1) (Value.obj iq.2)) params

/-- Embedding of the parameter-building prefix of `checkProgress` inside
`pollProgress`: drain the queued auxiliary parameters (note the source
reads `progressInputParams[jobID]` even when only the wildcard key
matched the `in` test), then set `job_id`, `key` and the consumed
`canceled` flag. Returns the outgoing poll parameters and the updated
client state. -/
def checkProgressBuildParams (st : ClientState) (jobID : String) :
    ParamMap × ClientState :=
  let hasEntry :=
    alHasKey st.progressInputParams (some jobID) || alHasKey st.progressInputParams none
  let params0 : ParamMap := []
  let params1 :=
    if hasEntry then
      match alLookup st.progressInputParams (some jobID) with
      | some arr => assignArrayIndices params0 arr
      | none => params0
    else params0
  let pip1 :=
    if hasEntry then
      alDelete (alDelete st.progressInputParams (some jobID)) none
    else st.progressInputParams
  let params2 := alSet params1 "job_id" (Value.str jobID)
  let params3 := alSet params2 "key" (Value.str st.apiKey)
  let canceled :=
    alHasKey st.jobsCanceled (some jobID) || alHasKey st.jobsCanceled none
  let params4 := alSet params3 "canceled" (Value.bool canceled)
  let jc1 := alDelete (alDelete st.jobsCanceled (some jobID)) none
  (params4, { st with progressInputParams := pip1, jobsCanceled := jc1 })

/-- The nested `progress` object of a poll response; every field may be
absent (`undefined`). -/
structure Progress where
  progress : Option Value
  queue_position : Option Value
  estimate : Option Value
  progress_data : Option Value

/-- A parsed JSON response body. Absent fields are `none`; `success`
is `false` both for an explicit `success: false` and for a body without
the field (both are falsy in the source's `if (response.success)`). -/
structure Response where
  success : Bool
  job_id : Option String
  job_state : Option String
  progress : Option Progress
  job_result : Option Value
  error : Option Value

/-- The empty object `{}` read as a response: every field absent. -/
def emptyResponse : Response :=
  { success := false, job_id := none, job_state := none, progress := none
    job_result := none, error := none }

/-- Embedding of the `fetchProgress` helper inside `pollProgress`: a
successful fetch returns the response, a thrown transport error is caught
and replaced by `{}`. -/
def fetchProgress : Except String Response → Response
  | Except.ok r => r
  | Except.error _ => emptyResponse

/-- The first argument handed to a progress callback (`progressInfo` in
the source); `job_id` is only present in the initial snapshot built by
`doAPIRequest`. -/
structure ProgressInfo where
  job_id : Option String
  progress : Option Value
  queue_position : Option Value
  estimate : Option Value

/-- One observable callback invocation. -/
inductive Event where
  | progressUpdate : ProgressInfo → Option Value → Event
  | resultValue : Option Value → Event
  | resultResponse : Response → Event

/-- Whether an event is an invocation of the result callback. -/
def isResultEvent : Event → Bool
  | Event.resultValue _ => true
  | Event.resultResponse _ => true
  | _ => false

/-- What one poll cycle does after the response is in: the callbacks it
fires, whether `setTimeout` schedules another cycle, and whether the
handler itself threw (reading `progress.progress` of an `undefined`
`progress`). -/
structure CycleOutcome where
  events : List Event
  scheduleNext : Bool
  crashed : Bool

/-- Embedding of the response-handling part of `checkProgress`:
`success` falsy does nothing at all; `job_state === 'done'` with
`progress === undefined` fires the result callback with `job_result`;
otherwise the progress callback fires (throwing if `progress` is absent)
and, unless the state is `'canceled'`, the next cycle is scheduled. -/
def checkProgressHandle (result : Response) : CycleOutcome :=
  if result.success then
    if result.job_state == some "done" && result.progress.isNone then
      { events := [Event.resultValue result.job_result], scheduleNext := false, crashed := false }
    else
      match result.progress with
      | none => { events := [], scheduleNext := false, crashed := true }
      | some p =>
          { events := [Event.progressUpdate
              { job_id := none, progress := p.progress
                queue_position := p.queue_position, estimate := p.estimate }
              p.progress_data]
            scheduleNext := !(result.job_state == some "canceled")
            crashed := false }
  else
    { events := [], scheduleNext := false, crashed := false }

/-- The poll loop of `pollProgress`, driven by a script of network
outcomes (one per executed cycle). Returns the callback events in order,
whether a further cycle is still pending when the script runs out, and
the final client state. -/
def pollLoop : ClientState → String → List (Except String Response) →
    List Event × Bool × ClientState
  | st, _, [] => ([], true, st)
  | st, jobID, net :: rest =>
      let st2 := (checkProgressBuildParams st jobID).2
      let outcome := checkProgressHandle (fetchProgress net)
      if outcome.scheduleNext then
        let r := pollLoop st2 jobID rest
        (outcome.events ++ r.1, r.2.1, r.2.2)
      else
        (outcome.events, false, st2)

/-- The outgoing poll request parameter maps of the first `n` poll
cycles for one job (each cycle consumes the queued auxiliary parameters
and the cancellation mark exactly as `checkProgress` does). -/
def pollRequests : ClientState → String → Nat → List ParamMap
  | _, _, 0 => []
  | st, jobID, n + 1 =>
      let pr := checkProgressBuildParams st jobID
      pr.1 :: pollRequests pr.2 jobID n

/-- JavaScript string coercion of a possibly-`undefined` job identifier
(as happens in template literals). -/
def jsDisplayString : Option String → String
  | some s => s
  | none => "undefined"

/-- A nullable string as a JSON value (`null` when absent). -/
def jsNullableString : Option String → Value
  | some s => Value.str s
  | none => Value.null

/-- Embedding of the parameter assembly in `Aki.doAPIRequest`: the caller
parameters pass through `stringifyObjects`, then the client writes
`client_session_auth_key`, `key` (per-call override or the stored key)
and `wait_for_result` (true exactly when no progress callback is given),
overwriting caller entries of the same names. -/
def doAPIRequestParams (st : ClientState) (params : ParamMap)
    (progressCallbackGiven : Bool) (apiKeyOverride : Option String) : ParamMap :=
  let p0 := stringifyObjects params
  let p1 := alSet p0 "client_session_auth_key" (jsNullableString st.clientSessionAuthKey)
  let p2 := alSet p1 "key" (Value.str (apiKeyOverride.getD st.apiKey))
  let p3 := alSet p2 "wait_for_result" (Value.bool (!progressCallbackGiven))
  p3

/-- Embedding of the response handling of `Aki.doAPIRequest` (polling
variant, `progressStream = false`): on a successful submission with a
progress callback, the initial zero-progress snapshot is delivered and
the poll loop runs against the given script; otherwise the submission
response goes straight to the result callback. Returns the events and
whether a poll cycle is still pending. -/
def doAPIRequestRun (st : ClientState) (progressCallbackGiven : Bool)
    (submitResp : Response) (script : List (Except String Response)) :
    List Event × Bool :=
  if submitResp.success then
    if progressCallbackGiven then
      let initInfo : ProgressInfo :=
        { job_id := submitResp.job_id, progress := some (Value.num 0)
          queue_position := some (Value.num (-1)), estimate := some (Value.num (-1)) }
      let r := pollLoop st (jsDisplayString submitResp.job_id) script
      (Event.progressUpdate initInfo (some Value.null) :: r.1, r.2.1)
    else
      ([Event.resultResponse submitResp], false)
  else
    ([Event.resultResponse submitResp], false)

/-- An outgoing HTTP request as `fetchAsync` builds it. -/
structure HttpRequest where
  url : String
  method : String
  hasJsonHeader : Bool
  body : Option String

/-- Embedding of `Aki.fetchAsync(url, params, doPost)`: POST requests
carry the JSON header and `JSON.stringify(params)` as body, GET requests
carry neither. -/
def fetchAsyncRequest (url : String) (params : Value) (doPost : Bool) : HttpRequest :=
  { url := url
    method := if doPost then "POST" else "GET"
    hasJsonHeader := doPost
    body := if doPost then some (jsonStringify params) else none }

/-- One hexadecimal digit, uppercase. -/
def hexDigitChar (n : Nat) : Char :=
  if n < 10 then Char.ofNat (48 + n) else Char.ofNat (55 + n)

/-- Characters `encodeURIComponent` leaves unescaped. -/
def isUnreservedURIChar (c : Char) : Bool :=
  c.isAlphanum || c = '-' || c = '_' || c = '.' || c = '!' || c = '~' ||
    c = '*' || c = Char.ofNat 39 || c = '(' || c = ')'

/-- Percent-encoding of one ASCII character. -/
def percentEncodeChar (c : Char) : String :=
  "%" ++ String.singleton (hexDigitChar (c.toNat / 16)) ++
    String.singleton (hexDigitChar (c.toNat % 16))

/-- Model of `encodeURIComponent` on ASCII strings. -/
def encodeURIComponent (s : String) : String :=
  String.join (s.data.map fun c =>
    if isUnreservedURIChar c then String.singleton c else percentEncodeChar c)

/-- Embedding of the network call in `Aki.initAPIKey`: the source invokes
`fetchAsync(url, false)` with only two arguments, so the literal `false`
is bound to `params` and `doPost` keeps its default `true`. -/
def initAPIKeyRequest (st : ClientState) : HttpRequest :=
  fetchAsyncRequest
    (st.apiServerUrl ++ "validate_key?key=" ++ st.apiKey ++ "&version=" ++
      encodeURIComponent akiVersion)
    (Value.bool false) true

/-- Reading a key just written by `alSet` yields the written value. -/
theorem alLookup_alSet_self [DecidableEq κ] (m : List (κ × α)) (k : κ) (v : α) :
    alLookup (alSet m k v) k = some v := by
  induction m with
  | nil => simp [alSet, alLookup]
  | cons kv rest ih =>
      by_cases h : kv.1 = k
      · simp [alSet, h, alLookup]
      · simp [alSet, h, alLookup, ih]

/-- `alSet` leaves the bindings of other keys unchanged. -/
theorem alLookup_alSet_ne [DecidableEq κ] (m : List (κ × α)) (k k' : κ) (v : α)
    (h : k' ≠ k) : alLookup (alSet m k v) k' = alLookup m k' := by
  induction m with
  | nil => simp [alSet, alLookup, Ne.symm h]
  | cons kv rest ih =>
      by_cases hk : kv.1 = k
      · simp [alSet, hk, alLookup, Ne.symm h]
      · simp [alSet, hk, alLookup, ih]

/-- A deleted key reads as absent. -/
theorem alLookup_alDelete_self [DecidableEq κ] (m : List (κ × α)) (k : κ) :
    alLookup (alDelete m k) k = none := by
  induction m with
  | nil => simp [alDelete, alLookup]
  | cons kv rest ih =>
      by_cases h : kv.1 = k
      · simp [alDelete, h, ih]
      · simp [alDelete, h, alLookup, ih]

/-- `alDelete` leaves the bindings of other keys unchanged. -/
theorem alLookup_alDelete_ne [DecidableEq κ] (m : List (κ × α)) (k k' : κ)
    (h : k' ≠ k) : alLookup (alDelete m k) k' = alLookup m k' := by
  induction m with
  | nil => simp [alDelete]
  | cons kv rest ih =>
      by_cases hk : kv.1 = k
      · simp [alDelete, hk, alLookup, Ne.symm h, ih]
      · simp [alDelete, hk, alLookup, ih]

/-- Writing a fresh key appends the binding at the end. -/
theorem alSet_eq_append [DecidableEq κ] (m : List (κ × α)) (k : κ) (v : α)
    (h : k ∉ alKeys m) : alSet m k v = m ++ [(k, v)] := by
  induction m with
  | nil => rfl
  | cons kv rest ih =>
      have h1 : kv.1 ≠ k := by
        intro hh
        exact h (by simp [alKeys, hh])
      have h2 : k ∉ alKeys rest := by
        intro hh
        exact h (by simp [alKeys] at hh ⊢; exact Or.inr hh)
      simp [alSet, h1, ih h2]

/-- The `stringifyObjects` loop over inputs with pairwise distinct keys,
run from any accumulator disjoint from them, appends the transformed
bindings in order. -/
theorem stringifyObjectsGo_eq (ps : ParamMap) :
    ∀ acc : ParamMap, (alKeys ps).Nodup →
      (∀ k, k ∈ alKeys ps → k ∉ alKeys acc) →
      stringifyObjectsGo ps acc
        = acc ++ ps.map (fun kv =>
            (kv.1, if jsTypeof kv.2 == "object" && !(isNullValue kv.2) then
                Value.str (jsonStringify kv.2)
              else kv.2)) := by
  induction ps with
  | nil =>
      intro acc _ _
      simp [stringifyObjectsGo]
  | cons kv rest ih =>
      intro acc hnd hdisj
      have hnd2 : kv.1 ∉ alKeys rest ∧ (alKeys rest).Nodup := List.nodup_cons.mp hnd
      have hk : kv.1 ∉ alKeys acc := hdisj kv.1 (List.mem_cons_self _ _)
      have hd : ∀ k, k ∈ alKeys rest →
          k ∉ alKeys (acc ++ [(kv.1,
            if jsTypeof kv.2 == "object" && !(isNullValue kv.2) then
              Value.str (jsonStringify kv.2)
            else kv.2)]) := by
        intro k hkrest hmem
        have hkeys : alKeys (acc ++ [(kv.1,
            if jsTypeof kv.2 == "object" && !(isNullValue kv.2) then
              Value.str (jsonStringify kv.2)
            else kv.2)]) = alKeys acc ++ [kv.1] := by
          simp only [alKeys, List.map_append, List.map_cons, List.map_nil]
        rw [hkeys] at hmem
        rcases List.mem_append.mp hmem with h | h
        · exact hdisj k (List.mem_cons_of_mem _ hkrest) h
        · exact hnd2.1 ((List.mem_singleton.mp h) ▸ hkrest)
      simp only [stringifyObjectsGo]
      rw [alSet_eq_append _ _ _ hk, ih _ hnd2.2 hd]
      simp

/-- Whenever a client state holds no cancellation mark for job `j` and
none for the wildcard, the next `n` poll requests for `j` all carry the
`canceled` flag as `false`. -/
theorem pollRequests_canceled_none (j : String) (n : Nat) :
    ∀ st : ClientState,
      alLookup st.jobsCanceled (some j) = none →
      alLookup st.jobsCanceled none = none →
      (pollRequests st j n).map (fun pm => alLookup pm "canceled")
        = List.replicate n (some (Value.bool false)) := by
  induction n with
  | zero =>
      intro st _ _
      simp [pollRequests]
  | succ m ih =>
      intro st h1 h2
      simp only [pollRequests, List.map_cons, List.replicate_succ, List.cons.injEq]
      refine ⟨?_, ?_⟩
      · simp [checkProgressBuildParams, alHasKey, h1, h2, alLookup_alSet_self]
      · refine ih _ ?_ ?_
        · simp [checkProgressBuildParams, alLookup_alDelete_self, alLookup_alDelete_ne]
        · simp [checkProgressBuildParams, alLookup_alDelete_self]

/-- C1: the claim fails on the code. After
`append_progressInputParams("J1", {x: "1"})`, the next poll request for
`"J1"` does not carry the key `"x"` at all: `Object.assign` over the
queued array copies the array index, so the request carries the key `"0"`
bound to the whole object instead. Only the clearing of the queue entry
behaves as claimed. -/
theorem claimC1_queued_params_not_merged :
    alLookup (checkProgressBuildParams
        (append_progressInputParams (AkiNew "ep" "k") (some "J1")
          [("x", Value.str "1")]) "J1").1 "x" = none ∧
    alLookup (checkProgressBuildParams
        (append_progressInputParams (AkiNew "ep" "k") (some "J1")
          [("x", Value.str "1")]) "J1").1 "0"
      = some (Value.obj [("x", Value.str "1")]) ∧
    alLookup (checkProgressBuildParams
        (append_progressInputParams (AkiNew "ep" "k") (some "J1")
          [("x", Value.str "1")]) "J1").2.progressInputParams (some "J1") = none :=
  ⟨rfl, rfl, rfl⟩

/-- C2: the claim fails on the code. A throwing poll fetch is caught and
fires no callback, as claimed, but the cycle is then treated like any
falsy-`success` response: no further cycle is scheduled, even when later
responses would be available — the poll loop stops instead of
continuing. -/
theorem claimC2_transport_failure_stops_loop (st : ClientState) (j msg : String)
    (rest : List (Except String Response)) :
    (pollLoop st j (Except.error msg :: rest)).1 = [] ∧
    (pollLoop st j (Except.error msg :: rest)).2.1 = false :=
  ⟨rfl, rfl⟩

/-- C3 counterexample: a well-formed poll response carrying
`success: false` is delivered to no callback at all — in particular not
to the result callback — refuting the claim for poll cycles. -/
theorem claimC3_poll_failure_not_delivered :
    (pollLoop (AkiNew "ep" "k") "J1"
      [Except.ok ⟨false, none, none, none, none, some (Value.str "bad")⟩]).1 = [] :=
  rfl

/-- C3 amended: a `success: false` body answering the initial submission
is never thrown and always goes to the result callback as data; a
`success: false` body answering a poll cycle is never thrown either, but
is delivered to no callback — the poll loop silently stops. -/
theorem claimC3_success_false_delivery (st : ClientState) (pg : Bool)
    (script : List (Except String Response)) (ji js : Option String)
    (pr : Option Progress) (jr er : Option Value) :
    (doAPIRequestRun st pg ⟨false, ji, js, pr, jr, er⟩ script).1
      = [Event.resultResponse ⟨false, ji, js, pr, jr, er⟩] ∧
    checkProgressHandle ⟨false, ji, js, pr, jr, er⟩ = ⟨[], false, false⟩ :=
  ⟨rfl, rfl⟩

/-- C4: submitting with a progress callback against a script whose first
poll answers `running` with a progress object and whose second answers
`done` with a `job_result` and no progress field yields exactly the
initial zero snapshot, then one poll progress callback (cycle 1), then
one result callback with the job result (cycle 2), in that order, with
no further cycle pending. -/
theorem claimC4_running_then_done (st : ClientState) (j : String) (p : Progress)
    (res : Value) (js0 : Option String) (pr0 : Option Progress)
    (jr0 er0 : Option Value) (ji1 ji2 : Option String) (jr1 er1 er2 : Option Value) :
    doAPIRequestRun st true
        ⟨true, some j, js0, pr0, jr0, er0⟩
        [Except.ok ⟨true, ji1, some "running", some p, jr1, er1⟩,
         Except.ok ⟨true, ji2, some "done", none, some res, er2⟩]
      = ([Event.progressUpdate
            ⟨some j, some (Value.num 0), some (Value.num (-1)), some (Value.num (-1))⟩
            (some Value.null),
          Event.progressUpdate
            ⟨none, p.progress, p.queue_position, p.estimate⟩
            p.progress_data,
          Event.resultValue (some res)], false) :=
  rfl

/-- C5: marking job `j` for cancellation makes the next poll request for
`j` carry `canceled = true`, and every one of the following `n` poll
requests for `j` (with no new cancellation call) carries
`canceled = false`: the mark is consumed by exactly one poll. -/
theorem claimC5_cancel_consumed_once (st : ClientState) (j : String) (n : Nat) :
    alLookup (checkProgressBuildParams (cancelRequest st (some j)) j).1 "canceled"
      = some (Value.bool true) ∧
    (pollRequests (checkProgressBuildParams (cancelRequest st (some j)) j).2 j n).map
        (fun pm => alLookup pm "canceled")
      = List.replicate n (some (Value.bool false)) := by
  constructor
  · simp [cancelRequest, checkProgressBuildParams, alHasKey, alLookup_alSet_self]
  · refine pollRequests_canceled_none j n _ ?_ ?_
    · simp [cancelRequest, checkProgressBuildParams,
        alLookup_alDelete_self, alLookup_alDelete_ne]
    · simp [cancelRequest, checkProgressBuildParams, alLookup_alDelete_self]

/-- C6: on a parameter object (pairwise distinct keys), `stringifyObjects`
keeps the key list intact and rewrites exactly the structured (non-null
object) values to their JSON-string encoding, leaving every other value
unchanged. -/
theorem claimC6_stringify_objects (ps : ParamMap) (hnd : (alKeys ps).Nodup) :
    alKeys (stringifyObjects ps) = alKeys ps ∧
    stringifyObjects ps
      = ps.map (fun kv =>
          (kv.1, if isStructuredSpec kv.2 then Value.str (jsonStringify kv.2) else kv.2)) := by
  have hmain : stringifyObjects ps
      = ps.map (fun kv =>
          (kv.1, if jsTypeof kv.2 == "object" && !(isNullValue kv.2) then
              Value.str (jsonStringify kv.2)
            else kv.2)) := by
    have h := stringifyObjectsGo_eq ps [] hnd (by intro k _; simp [alKeys])
    simpa [stringifyObjects] using h
  have hcond : ∀ v : Value,
      (jsTypeof v == "object" && !(isNullValue v)) = isStructuredSpec v := by
    intro v
    cases v <;> rfl
  constructor
  · rw [hmain]
    simp only [alKeys, List.map_map]
    rfl
  · rw [hmain]
    simp only [hcond]

/-- C6 witness: the theorem applied to the concrete parameter object
having one scalar and one nested object value. -/
theorem claimC6_witness :
    (alKeys [("a", Value.num 1), ("b", Value.obj [("c", Value.bool true)])]).Nodup ∧
    (alKeys (stringifyObjects [("a", Value.num 1), ("b", Value.obj [("c", Value.bool true)])])
        = alKeys [("a", Value.num 1), ("b", Value.obj [("c", Value.bool true)])] ∧
      stringifyObjects [("a", Value.num 1), ("b", Value.obj [("c", Value.bool true)])]
        = [("a", Value.num 1), ("b", Value.obj [("c", Value.bool true)])].map (fun kv =>
            (kv.1, if isStructuredSpec kv.2 then Value.str (jsonStringify kv.2) else kv.2))) :=
  ⟨by decide, claimC6_stringify_objects _ (by decide)⟩

/-- C7: the claim fails on the code. The key-validation request does put
`key` and `version` in the query string, but because `initAPIKey` passes
the literal `false` as the `params` argument of `fetchAsync`, `doPost`
keeps its default `true`: the request goes out as POST with the JSON
header and the body `"false"` rather than as GET with no body. -/
theorem claimC7_validate_key_is_post (st : ClientState) :
    (initAPIKeyRequest st).method = "POST" ∧
    (initAPIKeyRequest st).body = some "false" ∧
    (initAPIKeyRequest st).hasJsonHeader = true ∧
    (initAPIKeyRequest st).url
      = st.apiServerUrl ++ "validate_key?key=" ++ st.apiKey ++ "&version=" ++
        encodeURIComponent akiVersion :=
  ⟨rfl, rfl, rfl, rfl⟩

/-- C8: the claim fails on the code. With parameters queued only under
the wildcard (`null`) key, the next poll for `"J1"` injects nothing:
the request consists solely of `job_id`, `key` and `canceled`, because
the source reads `progressInputParams[jobID]` (which is `undefined`)
even though the wildcard key is what passed the `in` test. The wildcard
entry is nevertheless removed, so the queued parameters are lost. -/
theorem claimC8_wildcard_params_dropped :
    (checkProgressBuildParams
        (append_progressInputParams (AkiNew "ep" "k") none
          [("x", Value.str "1")]) "J1").1
      = [("job_id", Value.str "J1"), ("key", Value.str "k"),
         ("canceled", Value.bool false)] ∧
    (checkProgressBuildParams
        (append_progressInputParams (AkiNew "ep" "k") none
          [("x", Value.str "1")]) "J1").2.progressInputParams = [] :=
  ⟨rfl, rfl⟩

/-- C9: a poll cycle whose response has `success: true` and
`job_state: "canceled"` never invokes the result callback (for this or
any later cycle — the loop consumes no further scripted response) and
schedules no further cycle, whether or not the response carries a
progress object. -/
theorem claimC9_canceled_ends_loop_silently (st : ClientState) (j : String)
    (ji : Option String) (p : Option Progress) (jr er : Option Value)
    (rest : List (Except String Response)) :
    ((pollLoop st j (Except.ok ⟨true, ji, some "canceled", p, jr, er⟩
        :: rest)).1.filter isResultEvent) = [] ∧
    (pollLoop st j (Except.ok ⟨true, ji, some "canceled", p, jr, er⟩
        :: rest)).2.1 = false := by
  cases p with
  | none => exact ⟨rfl, rfl⟩
  | some pp => exact ⟨rfl, rfl⟩

/-- C10: whatever the caller put into the parameter object, the
transmitted submission parameters bind `key` to the per-call override or
the configured API key, `wait_for_result` to the absence of a progress
callback, and `client_session_auth_key` to the stored session key —
caller-supplied entries of those names are overwritten. -/
theorem claimC10_reserved_fields_overwritten (st : ClientState) (ps : ParamMap)
    (pg : Bool) (ov : Option String) :
    alLookup (doAPIRequestParams st ps pg ov) "key"
      = some (Value.str (ov.getD st.apiKey)) ∧
    alLookup (doAPIRequestParams st ps pg ov) "wait_for_result"
      = some (Value.bool (!pg)) ∧
    alLookup (doAPIRequestParams st ps pg ov) "client_session_auth_key"
      = some (jsNullableString st.clientSessionAuthKey) := by
  refine ⟨?_, ?_, ?_⟩ <;>
    simp [doAPIRequestParams, alLookup_alSet_self, alLookup_alSet_ne]

end AkiClient
